import Mathlib

/-!
Verification of the TypingMind cloud-backup core module.

The definitions below are a shallow embedding of the JavaScript source
(`src/unnamed/part_000`).  Bytes are modelled as `List Nat`, the Web Crypto
AEAD/KDF primitives and JSON encode/decode (external collaborators, not code
of this repository) are abstract parameters carried by a `Prim`/`Env`
structure, and the browser `localStorage` dataset plus the module-level
mutable variables (`config`, `isRunning`, `localMetadata`, `cloudMetadata`)
are threaded explicitly through a state record `St`.
-/

namespace TMCloud

abbrev Bytes := List Nat

/-- The JSON header written by `encryptData` (part_000 lines 272-280). -/
structure Header where
  version : Nat
  algorithm : String
  keyDerivation : String
  iterations : Nat
  saltSize : Nat
  ivSize : Nat
  timestamp : Nat
  deriving DecidableEq

/-- Abstract cryptographic primitives (`crypto.subtle` and `JSON` for the
header, external collaborators of the module).  `encrypt` returns
ciphertext plus authentication tag; `decrypt` returns `none` exactly when
AES-GCM tag verification fails (the `OperationError` case). -/
structure Prim (K : Type) where
  deriveKey : String → Bytes → Nat → K
  encrypt : K → Bytes → Bytes → Bytes
  decrypt : K → Bytes → Bytes → Option Bytes
  headerEnc : Header → Bytes
  headerDec : Bytes → Option Header

/-- Decryption failures of `decryptData` (part_000 lines 342-349):
an `OperationError` from tag verification is mapped to the single
`Invalid password or corrupted data` error; every other failure
(malformed layout, unsupported version, header parse) is rethrown as
`Failed to decrypt data`. -/
inductive DErr where
  | invalidPasswordOrCorruptData
  | failedToDecrypt
  deriving DecidableEq

instance decEqExcept {ε α : Type} [DecidableEq ε] [DecidableEq α] :
    DecidableEq (Except ε α) := fun x y =>
  match x, y with
  | .error e, .error f =>
    if h : e = f then .isTrue (by rw [h])
    else .isFalse (fun hc => by cases hc; exact h rfl)
  | .ok a, .ok b =>
    if h : a = b then .isTrue (by rw [h])
    else .isFalse (fun hc => by cases hc; exact h rfl)
  | .error _, .ok _ => .isFalse (fun hc => by cases hc)
  | .ok _, .error _ => .isFalse (fun hc => by cases hc)

/-- The 4 little-endian bytes of `new Uint32Array([n])` (line 284). -/
def u32le (n : Nat) : Bytes :=
  [n % 256, n / 256 % 256, n / 65536 % 256, n / 16777216 % 256]

/-- `DataView.getUint32(0, true)` (line 311); only reached when the buffer
holds at least 4 bytes (a shorter buffer throws a `RangeError`). -/
def readU32le (b : Bytes) : Nat :=
  match b with
  | b0 :: b1 :: b2 :: b3 :: _ => b0 + 256 * b1 + 65536 * b2 + 16777216 * b3
  | _ => 0

/-- The header object built by `encryptData` (lines 272-280). -/
def mkHeader (salt iv : Bytes) (now : Nat) : Header :=
  ⟨1, "AES-GCM", "PBKDF2", 100000, salt.length, iv.length, now⟩

/-- `encryptData(data, password)` (part_000 lines 252-305).  The fresh
random `salt` (16 bytes) and `iv` (12 bytes) and `Date.now()` are inputs
here since the source draws them from the environment.  Output layout:
4-byte LE header length, header bytes, salt, iv, ciphertext+tag. -/
def encryptData (prim : Prim K) (salt iv : Bytes) (data : Bytes)
    (password : String) (now : Nat) : Bytes :=
  let key := prim.deriveKey password salt 100000
  let ct := prim.encrypt key iv data
  let hb := prim.headerEnc (mkHeader salt iv now)
  u32le hb.length ++ hb ++ salt ++ iv ++ ct

/-- `decryptData(encryptedData, password)` (part_000 lines 308-350).
Range violations of the typed-array views and header-parse failures throw
non-`OperationError` errors, hence `failedToDecrypt`; a tag-verification
failure throws `OperationError`, hence `invalidPasswordOrCorruptData`. -/
def decryptData (prim : Prim K) (bytes : Bytes) (password : String) :
    Except DErr Bytes :=
  if bytes.length < 4 then .error .failedToDecrypt else
  let hl := readU32le bytes
  if bytes.length < 4 + hl then .error .failedToDecrypt else
  match prim.headerDec ((bytes.drop 4).take hl) with
  | none => .error .failedToDecrypt
  | some header =>
    if header.version > 1 then .error .failedToDecrypt else
    let saltOffset := 4 + hl
    let ivOffset := saltOffset + header.saltSize
    let dataOffset := ivOffset + header.ivSize
    if bytes.length < dataOffset then .error .failedToDecrypt else
    let salt := (bytes.drop saltOffset).take header.saltSize
    let iv := (bytes.drop ivOffset).take header.ivSize
    let data := bytes.drop dataOffset
    let key := prim.deriveKey password salt header.iterations
    match prim.decrypt key iv data with
    | none => .error .invalidPasswordOrCorruptData
    | some pt => .ok pt

/-- A concrete instantiation of the abstract primitives, used to evaluate
the theorems on concrete inputs: the key is the password itself, the
"tag" is a checksum of plaintext and key length, and the header is
serialized as its numeric fields (the two algorithm strings are constants
of the envelope format). -/
def prim0 : Prim String where
  deriveKey p _ _ := p
  encrypt k _ d := d ++ [(d.sum + k.length) % 256]
  decrypt k _ c :=
    match c.getLast? with
    | some t => if t = (c.dropLast.sum + k.length) % 256 then some c.dropLast else none
    | none => none
  headerEnc h := [h.version, h.saltSize, h.ivSize, h.iterations, h.timestamp]
  headerDec b :=
    match b with
    | [v, ss, ivs, it, ts] => some ⟨v, "AES-GCM", "PBKDF2", it, ss, ivs, ts⟩
    | _ => none

def salt0 : Bytes := List.replicate 16 0

def iv0 : Bytes := List.replicate 12 0

/-! ## State model of the sync module

`V` is the abstract type of parsed JSON values held in `localStorage`
entries (the store holds parsed values; `JSON.parse`/`JSON.stringify` at
the storage boundary are identified).  The module-level mutable variables
of part_000 (lines 7-25) are collected in `St`. -/

/-- The `config` object (part_000 lines 7-18). -/
structure Config where
  syncMode : String
  syncHour : Nat
  syncMinute : Nat
  projectId : String
  bucketName : String
  keyFilename : String
  encryptionKey : String
  encryptionEnabled : Bool
  lastSyncTime : Nat
  lastSyncDate : String
  deriving DecidableEq

/-- The four application-data entries of `localStorage`
(`chats`, `settings`, `favorites`, `folders`). -/
structure Store (V : Type) where
  chats : Option V
  settings : Option V
  favorites : Option V
  folders : Option V
  deriving DecidableEq

/-- The object built by `getApplicationData` (lines 360-366) and the shape
`restoreApplicationData` consumes; fields parsed from a backup may be
absent. -/
structure AppData (V : Type) where
  chats : Option V
  settings : Option V
  favorites : Option V
  folders : Option V
  timestamp : Option Nat
  deriving DecidableEq

/-- The `{ data, timestamp }` wrapper used for local metadata
(lines 385-388, 406-409) and for decoded backups (line 610); a decoded
JSON object may lack either field (`|| 0` at lines 645-646 handles a
missing timestamp). -/
structure SyncData (V : Type) where
  data : Option (AppData V)
  timestamp : Option Nat
  deriving DecidableEq

/-- The `dataToSync` object built by `pushToCloud` (lines 520-523): since
`pushToCloud` is always called with the object returned by
`getLocalMetadata`, its `data` field is that whole `{ data, timestamp }`
wrapper (the payload is double-wrapped). -/
structure Pushed (V : Type) where
  data : SyncData V
  timestamp : Nat
  deriving DecidableEq

/-- The `cloudMetadata` module variable holds either a JSON-decoded value
(`getCloudMetadata` line 431, `pullFromCloud` line 619) or the in-memory
`dataToSync` object stored by `saveCloudMetadata` (line 451). -/
inductive CloudMeta (V : Type) where
  | parsed (s : SyncData V)
  | pushed (p : Pushed V)
  deriving DecidableEq

/-- One entry of `listGCSObjects` (lines 178-183): the key plus the user
metadata fields read by `pullFromCloud` (`timestamp`, `encrypted`). -/
structure CloudFile where
  key : String
  tsMeta : Option Nat
  encMeta : Option String
  deriving DecidableEq

/-- Cloud I/O performed, recorded for the frame/effect claims. -/
inductive Eff where
  | listReq (p : String)
  | read (key : String)
  | write (key : String) (data : Bytes)
  deriving DecidableEq

/-- Error kinds thrown by the pipeline (part_000 throw sites). -/
inductive Err where
  | storageError
  | noBackups
  | downloadFailed
  | noCloudMetadata
  | metaDecodeFailed
  | invalidPasswordOrCorruptData
  | failedToDecrypt
  | parseFailed
  | invalidBackupStructure
  | invalidDataStructure
  | noEncryptionKey
  deriving DecidableEq

/-- The module's mutable state: `config`, its persisted copy in
`localStorage` (written by `saveConfiguration`), `isRunning`, the two
metadata caches, the application dataset, and a log of cloud I/O. -/
structure St (V : Type) where
  config : Config
  persisted : Config
  isRunning : Bool
  localMetadata : Option (SyncData V)
  cloudMetadata : Option (CloudMeta V)
  store : Store V
  effects : List Eff
  deriving DecidableEq

/-- External world: clock, randomness, GCS responses, and the external
JSON codec (`K` is the abstract derived-key type of the crypto
primitives). -/
structure Env (K V : Type) where
  now : Nat
  today : String
  hour : Nat
  minute : Nat
  salt : Bytes
  iv : Bytes
  prim : Prim K
  size : V → Nat
  defObj : V
  defArr : V
  listBackups : Except Unit (List CloudFile)
  download : String → Except Unit (Option Bytes)
  upload : String → Except Unit Unit
  parseMeta : Bytes → Option (SyncData V)
  parseBackup : Bytes → Option (SyncData V)
  stringifyPushed : Pushed V → Bytes

def logEff (st : St V) (e : Eff) : St V :=
  { st with effects := st.effects ++ [e] }

/-- `isGcsConfigured()` (part_000 lines 88-90): all three credential
strings non-empty (empty string and null are falsy). -/
def isGcsConfigured (c : Config) : Bool :=
  (c.projectId != "") && (c.keyFilename != "") && (c.bucketName != "")

/-- `getApplicationData()` (lines 353-371): reads the four entries with
`'{}'`/`'[]'` defaults and stamps the current time. -/
def getApplicationData (env : Env K V) (st : St V) : AppData V :=
  ⟨some (st.store.chats.getD env.defObj),
   some (st.store.settings.getD env.defObj),
   some (st.store.favorites.getD env.defArr),
   some (st.store.folders.getD env.defArr),
   some env.now⟩

/-- `getLocalMetadata()` (lines 399-415): cached value, or computed from
the current dataset and cached. -/
def getLocalMetadata (env : Env K V) (st : St V) : SyncData V × St V :=
  match st.localMetadata with
  | some m => (m, st)
  | none =>
    let m : SyncData V := ⟨some (getApplicationData env st), some env.now⟩
    (m, { st with localMetadata := some m })

/-- `getCloudMetadata()` (lines 418-438): cached value, or downloaded and
JSON-decoded; a missing object (`downloadFromGCS` returned null) throws
`No cloud metadata found`, a decode failure rethrows the parse error. -/
def getCloudMetadata (env : Env K V) (st : St V) :
    Except Err (CloudMeta V) × St V :=
  match st.cloudMetadata with
  | some m => (.ok m, st)
  | none =>
    let st := logEff st (.read "typingmind-metadata.json")
    match env.download "typingmind-metadata.json" with
    | .error _ => (.error .storageError, st)
    | .ok none => (.error .noCloudMetadata, st)
    | .ok (some bytes) =>
      match env.parseMeta bytes with
      | none => (.error .metaDecodeFailed, st)
      | some s => (.ok (.parsed s), { st with cloudMetadata := some (.parsed s) })

/-- `restoreApplicationData(data)` (lines 374-396): rejects a payload
without `chats` before any write, then overwrites exactly the entries
present in the payload and refreshes the local metadata cache. -/
def restoreApplicationData (env : Env K V) (data : Option (AppData V))
    (st : St V) : Except Err Unit × St V :=
  match data with
  | none => (.error .invalidDataStructure, st)
  | some d =>
    match d.chats with
    | none => (.error .invalidDataStructure, st)
    | some c =>
      let s1 := { st.store with chats := some c }
      let s2 := match d.settings with
        | some x => { s1 with settings := some x }
        | none => s1
      let s3 := match d.favorites with
        | some x => { s2 with favorites := some x }
        | none => s2
      let s4 := match d.folders with
        | some x => { s3 with folders := some x }
        | none => s3
      (.ok (), { st with store := s4, localMetadata := some ⟨some d, some env.now⟩ })

/-- The date-keyed backup object name (line 545). -/
def backupKey (today ext : String) : String :=
  "typingmind-backup-" ++ today ++ ext

/-- Upload of the serialized backup followed by `saveCloudMetadata`
(lines 548-555 and 441-459). -/
def pushUpload (env : Env K V) (dataToSync : Pushed V) (uploadData : Bytes)
    (ext : String) (st : St V) : Except Err Unit × St V :=
  let key := backupKey env.today ext
  let st := logEff st (.write key uploadData)
  match env.upload key with
  | .error _ => (.error .storageError, st)
  | .ok _ =>
    let st := logEff st
      (.write "typingmind-metadata.json" (env.stringifyPushed dataToSync))
    match env.upload "typingmind-metadata.json" with
    | .error _ => (.error .storageError, st)
    | .ok _ => (.ok (), { st with cloudMetadata := some (.pushed dataToSync) })

/-- `pushToCloud(localData)` (lines 514-563).  Both call sites
(`performSync` line 704, `determineAndPerformSync` lines 634/642/665/672)
pass the object returned by `getLocalMetadata`, which is always truthy, so
the `localData || await getApplicationData()` fallback is dead and
`localData` is taken as given. -/
def pushToCloud (env : Env K V) (localData : SyncData V) (st : St V) :
    Except Err Unit × St V :=
  let dataToSync : Pushed V := ⟨localData, env.now⟩
  let jsonData := env.stringifyPushed dataToSync
  if st.config.encryptionEnabled then
    if st.config.encryptionKey = "" then (.error .noEncryptionKey, st)
    else
      pushUpload env dataToSync
        (encryptData env.prim env.salt env.iv jsonData st.config.encryptionKey
          env.now)
        ".dat" st
  else
    pushUpload env dataToSync jsonData ".json" st

/-- Insertion step of `files.sort((a, b) => bTime - aTime)`
(lines 578-582): newest timestamp first, missing metadata counts as 0. -/
def sortInsertDesc (f : CloudFile) : List CloudFile → List CloudFile
  | [] => [f]
  | g :: gs =>
    if f.tsMeta.getD 0 ≤ g.tsMeta.getD 0 then g :: sortInsertDesc f gs
    else f :: g :: gs

def sortByTimestampDesc (files : List CloudFile) : List CloudFile :=
  files.foldr sortInsertDesc []

/-- Decode, validate and restore a downloaded backup
(lines 610-619): `JSON.parse`, the `syncData.data` check, then
`restoreApplicationData` and the cloud-metadata cache update. -/
def pullFinish (env : Env K V) (jsonBytes : Bytes) (st : St V) :
    Except Err Unit × St V :=
  match env.parseBackup jsonBytes with
  | none => (.error .parseFailed, st)
  | some syncData =>
    match syncData.data with
    | none => (.error .invalidBackupStructure, st)
    | some d =>
      match restoreApplicationData env (some d) st with
      | (.error e, st') => (.error e, st')
      | (.ok _, st') =>
        (.ok (), { st' with cloudMetadata := some (.parsed syncData) })

/-- `pullFromCloud()` (lines 566-627): list backups, pick the newest by
timestamp metadata, download, decrypt if the metadata/extension indicates
encryption, decode, validate, restore. -/
def pullFromCloud (env : Env K V) (st : St V) : Except Err Unit × St V :=
  let st := logEff st (.listReq "typingmind-backup-")
  match env.listBackups with
  | .error _ => (.error .storageError, st)
  | .ok files =>
    if files.isEmpty then (.error .noBackups, st)
    else
      match sortByTimestampDesc files with
      | [] => (.error .noBackups, st)
      | latest :: _ =>
        let st := logEff st (.read latest.key)
        match env.download latest.key with
        | .error _ => (.error .storageError, st)
        | .ok none => (.error .downloadFailed, st)
        | .ok (some bytes) =>
          if latest.encMeta == some "true" || latest.key.endsWith ".dat" then
            if st.config.encryptionKey = "" then (.error .noEncryptionKey, st)
            else
              match decryptData env.prim bytes st.config.encryptionKey with
              | .error .invalidPasswordOrCorruptData =>
                (.error .invalidPasswordOrCorruptData, st)
              | .error .failedToDecrypt => (.error .failedToDecrypt, st)
              | .ok pt => pullFinish env pt st
          else pullFinish env bytes st

inductive Direction where
  | push
  | pull
  deriving DecidableEq

/-- The pure direction decision of `determineAndPerformSync`
(lines 660-674), over the already-present cloud metadata. -/
def decideDirection (localTs localCount cloudTs cloudCount : Nat) : Direction :=
  if cloudTs > localTs ∧ cloudCount > 0 then .pull
  else if localTs > cloudTs ∧ localCount > 0 then .push
  else if cloudCount > localCount then .pull else .push

/-- The decision including the absent-cloud case (lines 637-643: a failed
`getCloudMetadata` means push). -/
def decideWithCloud (localTs localCount : Nat) :
    Option (Nat × Nat) → Direction
  | none => .push
  | some (cloudTs, cloudCount) =>
    decideDirection localTs localCount cloudTs cloudCount

/-- `cloudData.timestamp || 0` (line 645) over either cache shape. -/
def cloudMetaTimestamp : CloudMeta V → Nat
  | .parsed s => s.timestamp.getD 0
  | .pushed p => p.timestamp

/-- `Object.keys(x.data.chats).length` with the `?: 0` guards
(lines 648-651): on a `pushed` value `.data` is the `{ data, timestamp }`
wrapper, whose `chats` is undefined, so the count is 0. -/
def syncChatCount (env : Env K V) (s : SyncData V) : Nat :=
  match s.data with
  | some ad => match ad.chats with | some c => env.size c | none => 0
  | none => 0

def cloudMetaChatCount (env : Env K V) : CloudMeta V → Nat
  | .parsed s => syncChatCount env s
  | .pushed _ => 0

/-- `determineAndPerformSync(localData)` (lines 630-679). -/
def determineAndPerformSync (env : Env K V) (localData : SyncData V)
    (st : St V) : Except Err Unit × St V :=
  if st.config.syncMode = "backup" then pushToCloud env localData st
  else
    match getCloudMetadata env st with
    | (.error _, st') => pushToCloud env localData st'
    | (.ok cloudData, st') =>
      match decideDirection (localData.timestamp.getD 0)
          (syncChatCount env localData)
          (cloudMetaTimestamp cloudData)
          (cloudMetaChatCount env cloudData) with
      | .pull => pullFromCloud env st'
      | .push => pushToCloud env localData st'

/-- The `options` argument of `performSync` (line 682). -/
structure SyncOptions where
  force : Bool
  direction : Option String
  deriving DecidableEq

/-- The body of `performSync`'s try block (lines 700-709). -/
def syncBody (env : Env K V) (opts : SyncOptions) (st : St V) :
    Except Err Unit × St V :=
  let r := getLocalMetadata env st
  if opts.direction = some "push" then pushToCloud env r.1 r.2
  else if opts.direction = some "pull" then pullFromCloud env r.2
  else determineAndPerformSync env r.1 r.2

/-- `performSync(options)` (lines 682-722): guards, then the body with
every failure converted to `false`, success stamping `lastSyncTime` and
saving the configuration, and `isRunning` reset in the `finally`. -/
def performSync (env : Env K V) (opts : SyncOptions) (st : St V) :
    Bool × St V :=
  if st.isRunning then (false, st)
  else if isGcsConfigured st.config = false then (false, st)
  else if st.config.syncMode = "disabled" ∧ opts.force = false then (false, st)
  else
    match syncBody env opts { st with isRunning := true } with
    | (.ok _, st3) =>
      let cfg := { st3.config with lastSyncTime := env.now }
      (true, { st3 with config := cfg, persisted := cfg, isRunning := false })
    | (.error _, st3) => (false, { st3 with isRunning := false })

/-- `isDailySyncTime()` (lines 462-475). -/
def isDailySyncTime (today : String) (hour minute : Nat) (c : Config) : Bool :=
  if c.lastSyncDate = today then false
  else if hour > c.syncHour ∨ (hour = c.syncHour ∧ minute ≥ c.syncMinute)
    then true else false

/-- One tick of the interval installed by `startSyncInterval`
(lines 487-500): when not running and it is daily-sync time, run
`performSync` and then stamp `lastSyncDate` with today and save the
configuration.  `performSync` never throws (it converts failures to a
`false` return), so the stamping is unconditional and the catch block is
dead for `performSync` failures. -/
def dailySyncTick (env : Env K V) (st : St V) : St V :=
  if st.isRunning = false
      ∧ isDailySyncTime env.today env.hour env.minute st.config = true then
    let r := performSync env ⟨false, none⟩ st
    let cfg := { r.2.config with lastSyncDate := env.today }
    { r.2 with config := cfg, persisted := cfg }
  else st

/-- `Except.isOk` as a plain definition. -/
def exOk : Except ε α → Bool
  | .ok _ => true
  | .error _ => false

/-- The keys of the cloud writes in an effect log. -/
def writeKeys (l : List Eff) : List String :=
  l.filterMap fun e => match e with
    | .write k _ => some k
    | _ => none

/-! Concrete instantiations (V := Nat for JSON values, counted by
`size := id`; K := String for derived keys) used to evaluate the theorems
on concrete inputs. -/

def cfg0 : Config :=
  { syncMode := "sync", syncHour := 9, syncMinute := 0, projectId := "p",
    bucketName := "b", keyFilename := "k", encryptionKey := "",
    encryptionEnabled := false, lastSyncTime := 0,
    lastSyncDate := "2025-01-01" }

def store0 : Store Nat := ⟨none, none, none, none⟩

def st0 : St Nat :=
  { config := cfg0, persisted := cfg0, isRunning := false,
    localMetadata := none, cloudMetadata := none, store := store0,
    effects := [] }

def env0 : Env String Nat :=
  { now := 1000, today := "2025-01-02", hour := 10, minute := 30,
    salt := salt0, iv := iv0, prim := prim0, size := fun v => v,
    defObj := 0, defArr := 0, listBackups := .ok [],
    download := fun _ => .ok none, upload := fun _ => .ok (),
    parseMeta := fun _ => none, parseBackup := fun _ => none,
    stringifyPushed := fun _ => [] }

/-- A cloud that fails every read and write (transient storage error). -/
def env5 : Env String Nat :=
  { env0 with download := fun _ => .error (), upload := fun _ => .error () }

/-- Same clock date as `env0`, later instant. -/
def env8b : Env String Nat := { env0 with now := 2000 }

def ld0 : SyncData Nat := ⟨some ⟨some 3, none, none, none, some 500⟩, some 500⟩

def cfgNoGcs : Config := { cfg0 with projectId := "" }

def stNoGcs : St Nat := { st0 with config := cfgNoGcs, persisted := cfgNoGcs }

def d10 : AppData Nat := ⟨some 5, none, some 7, none, none⟩

theorem readU32le_u32le (n : Nat) (rest : Bytes) (h : n < 4294967296) :
    readU32le (u32le n ++ rest) = n := by
  simp only [u32le, readU32le, List.cons_append, List.nil_append]
  omega

theorem length_u32le (n : Nat) : (u32le n).length = 4 := rfl

/-- Decrypting a well-formed assembled envelope reduces to the AEAD
`decrypt` on the embedded ciphertext, with the key re-derived from the
embedded salt and iteration count. -/
theorem decryptData_assemble (prim : Prim K) (h : Header) (salt iv ct : Bytes)
    (pw : String)
    (hdec : prim.headerDec (prim.headerEnc h) = some h)
    (hlen : (prim.headerEnc h).length < 4294967296)
    (hver : h.version ≤ 1)
    (hsalt : h.saltSize = salt.length)
    (hiv : h.ivSize = iv.length) :
    decryptData prim
      (u32le (prim.headerEnc h).length ++ prim.headerEnc h ++ salt ++ iv ++ ct)
      pw =
    match prim.decrypt (prim.deriveKey pw salt h.iterations) iv ct with
    | none => .error .invalidPasswordOrCorruptData
    | some pt => .ok pt := by
  obtain ⟨hb, hhb⟩ : ∃ hb, prim.headerEnc h = hb := ⟨_, rfl⟩
  rw [hhb] at hdec hlen ⊢
  rw [show u32le hb.length ++ hb ++ salt ++ iv ++ ct
      = u32le hb.length ++ (hb ++ (salt ++ (iv ++ ct))) from by
        simp [List.append_assoc]]
  have hL : (u32le hb.length ++ (hb ++ (salt ++ (iv ++ ct)))).length
      = 4 + hb.length + salt.length + iv.length + ct.length := by
    simp only [List.length_append, length_u32le]
    omega
  have hread : readU32le (u32le hb.length ++ (hb ++ (salt ++ (iv ++ ct))))
      = hb.length := readU32le_u32le _ _ hlen
  have hHB : ((u32le hb.length ++ (hb ++ (salt ++ (iv ++ ct)))).drop 4).take hb.length
      = hb := by
    rw [List.drop_left' (length_u32le hb.length)]
    exact List.take_left' rfl
  have hSplitSalt : u32le hb.length ++ (hb ++ (salt ++ (iv ++ ct)))
      = (u32le hb.length ++ hb) ++ (salt ++ (iv ++ ct)) := by
    simp [List.append_assoc]
  have hSalt : ((u32le hb.length ++ (hb ++ (salt ++ (iv ++ ct)))).drop
      (4 + hb.length)).take salt.length = salt := by
    rw [hSplitSalt, List.drop_left' (by simp only [List.length_append, length_u32le])]
    exact List.take_left' rfl
  have hSplitIv : u32le hb.length ++ (hb ++ (salt ++ (iv ++ ct)))
      = (u32le hb.length ++ hb ++ salt) ++ (iv ++ ct) := by
    simp [List.append_assoc]
  have hIv : ((u32le hb.length ++ (hb ++ (salt ++ (iv ++ ct)))).drop
      (4 + hb.length + salt.length)).take iv.length = iv := by
    rw [hSplitIv, List.drop_left'
      (by simp only [List.length_append, length_u32le])]
    exact List.take_left' rfl
  have hSplitCt : u32le hb.length ++ (hb ++ (salt ++ (iv ++ ct)))
      = (u32le hb.length ++ hb ++ salt ++ iv) ++ ct := by
    simp [List.append_assoc]
  have hCt : (u32le hb.length ++ (hb ++ (salt ++ (iv ++ ct)))).drop
      (4 + hb.length + salt.length + iv.length) = ct := by
    rw [hSplitCt, List.drop_left'
      (by simp only [List.length_append, length_u32le])]
  simp only [decryptData, hread, hL, hHB, hdec, hsalt, hiv]
  rw [if_neg (by omega)]
  rw [if_neg (by omega)]
  rw [if_neg (by omega)]
  rw [if_neg (by omega)]
  rw [show 4 + hb.length + salt.length = (4 + hb.length) + salt.length from rfl] at hIv
  rw [hSalt, hIv, hCt]

theorem set_append_add (a b : List α) (j : Nat) (v : α) :
    (a ++ b).set (a.length + j) v = a ++ b.set j v := by
  induction a with
  | nil => simp
  | cons x xs ih =>
    have hidx : (x :: xs).length + j = (xs.length + j) + 1 := by
      simp only [List.length_cons]; omega
    rw [List.cons_append, hidx, List.set_cons_succ, ih, List.cons_append]

/-- Claim C2: for every byte payload and password, decrypting the envelope
produced by `encryptData` with the same password returns exactly the
payload: the serialized envelope (4-byte LE header length, version-1
header, 16-byte salt, 12-byte IV, ciphertext+tag) parses back and
`decryptData` recovers the plaintext, given that the external AEAD and
header codec satisfy their round-trip contracts at these inputs. -/
theorem encryptData_decryptData_roundtrip (prim : Prim K)
    (salt iv data : Bytes) (pw : String) (now : Nat)
    (hsalt : salt.length = 16) (hiv : iv.length = 12)
    (hhdr : prim.headerDec (prim.headerEnc (mkHeader salt iv now))
      = some (mkHeader salt iv now))
    (hlen : (prim.headerEnc (mkHeader salt iv now)).length < 4294967296)
    (hdec : prim.decrypt (prim.deriveKey pw salt 100000) iv
      (prim.encrypt (prim.deriveKey pw salt 100000) iv data) = some data) :
    decryptData prim (encryptData prim salt iv data pw now) pw = .ok data := by
  have hassem := decryptData_assemble prim (mkHeader salt iv now) salt iv
    (prim.encrypt (prim.deriveKey pw salt 100000) iv data) pw hhdr hlen
    (by simp [mkHeader]) rfl rfl
  simp only [encryptData]
  rw [hassem]
  simp only [mkHeader] at hdec ⊢
  rw [hdec]

/-- Claim C4: every envelope whose AEAD tag verification fails — whether
decrypted under a different password than the one used to encrypt, or
after a ciphertext byte of an honestly produced envelope was altered —
makes `decryptData` fail with the one `invalidPasswordOrCorruptData`
error (no signal distinguishing wrong password from corruption), and
`decryptData` never returns a plaintext that the AEAD did not
authenticate. -/
theorem decryptData_single_error_kind (prim : Prim K)
    (salt iv data : Bytes) (now : Nat) (pw1 pw2 : String)
    (hhdr : prim.headerDec (prim.headerEnc (mkHeader salt iv now))
      = some (mkHeader salt iv now))
    (hlen : (prim.headerEnc (mkHeader salt iv now)).length < 4294967296) :
    (prim.decrypt (prim.deriveKey pw2 salt 100000) iv
        (prim.encrypt (prim.deriveKey pw1 salt 100000) iv data) = none →
      decryptData prim (encryptData prim salt iv data pw1 now) pw2
        = .error .invalidPasswordOrCorruptData)
    ∧ (∀ j v, j < (prim.encrypt (prim.deriveKey pw1 salt 100000) iv data).length →
        prim.decrypt (prim.deriveKey pw1 salt 100000) iv
          ((prim.encrypt (prim.deriveKey pw1 salt 100000) iv data).set j v) = none →
        decryptData prim
          ((encryptData prim salt iv data pw1 now).set
            (4 + (prim.headerEnc (mkHeader salt iv now)).length
              + salt.length + iv.length + j) v) pw1
          = .error .invalidPasswordOrCorruptData)
    ∧ (∀ c pt,
        decryptData prim
          (u32le (prim.headerEnc (mkHeader salt iv now)).length
            ++ prim.headerEnc (mkHeader salt iv now) ++ salt ++ iv ++ c) pw1
          = .ok pt →
        prim.decrypt (prim.deriveKey pw1 salt 100000) iv c = some pt) := by
  refine ⟨?_, ?_, ?_⟩
  · intro hbad
    have hassem := decryptData_assemble prim (mkHeader salt iv now) salt iv
      (prim.encrypt (prim.deriveKey pw1 salt 100000) iv data) pw2 hhdr hlen
      (by simp [mkHeader]) rfl rfl
    simp only [encryptData]
    rw [hassem]
    simp only [mkHeader] at hbad ⊢
    rw [hbad]
  · intro j v _hj htam
    have hpos : 4 + (prim.headerEnc (mkHeader salt iv now)).length
        + salt.length + iv.length + j
        = (u32le (prim.headerEnc (mkHeader salt iv now)).length
          ++ prim.headerEnc (mkHeader salt iv now) ++ salt ++ iv).length + j := by
      simp only [List.length_append, length_u32le]
    have hsplit : encryptData prim salt iv data pw1 now
        = (u32le (prim.headerEnc (mkHeader salt iv now)).length
          ++ prim.headerEnc (mkHeader salt iv now) ++ salt ++ iv)
          ++ prim.encrypt (prim.deriveKey pw1 salt 100000) iv data := by
      simp [encryptData, List.append_assoc]
    rw [hsplit, hpos, set_append_add]
    have hassem := decryptData_assemble prim (mkHeader salt iv now) salt iv
      ((prim.encrypt (prim.deriveKey pw1 salt 100000) iv data).set j v) pw1
      hhdr hlen (by simp [mkHeader]) rfl rfl
    rw [show (u32le (prim.headerEnc (mkHeader salt iv now)).length
          ++ prim.headerEnc (mkHeader salt iv now) ++ salt ++ iv)
          ++ (prim.encrypt (prim.deriveKey pw1 salt 100000) iv data).set j v
        = u32le (prim.headerEnc (mkHeader salt iv now)).length
          ++ prim.headerEnc (mkHeader salt iv now) ++ salt ++ iv
          ++ (prim.encrypt (prim.deriveKey pw1 salt 100000) iv data).set j v from by
      simp [List.append_assoc]]
    rw [hassem]
    simp only [mkHeader] at htam ⊢
    rw [htam]
  · intro c pt hok
    have hassem := decryptData_assemble prim (mkHeader salt iv now) salt iv c pw1
      hhdr hlen (by simp [mkHeader]) rfl rfl
    rw [hassem] at hok
    simp only [mkHeader] at hok ⊢
    cases hdc : prim.decrypt (prim.deriveKey pw1 salt 100000) iv c with
    | none => rw [hdc] at hok; cases hok
    | some pt' => rw [hdc] at hok; cases hok; rfl

/-- Witness for C2 at concrete inputs. -/
theorem encryptData_decryptData_roundtrip_witness :
    decryptData prim0 (encryptData prim0 salt0 iv0 [1, 2, 3] "pw" 5) "pw"
      = .ok [1, 2, 3] :=
  encryptData_decryptData_roundtrip prim0 salt0 iv0 [1, 2, 3] "pw" 5
    (by decide) (by decide) (by decide) (by decide) (by decide)

/-- Witness for C4 at concrete inputs: wrong password, one altered
ciphertext byte, and an authenticated decryption. -/
theorem decryptData_single_error_kind_witness :
    decryptData prim0 (encryptData prim0 salt0 iv0 [1, 2, 3] "a" 0) "bb"
      = .error .invalidPasswordOrCorruptData
    ∧ decryptData prim0
        ((encryptData prim0 salt0 iv0 [1, 2, 3] "a" 0).set
          (4 + (prim0.headerEnc (mkHeader salt0 iv0 0)).length
            + salt0.length + iv0.length + 0) 9) "a"
        = .error .invalidPasswordOrCorruptData
    ∧ prim0.decrypt (prim0.deriveKey "a" salt0 100000) iv0 [1, 2, 3, 7]
        = some [1, 2, 3] := by
  have H := decryptData_single_error_kind prim0 salt0 iv0 [1, 2, 3] 0 "a" "bb"
    (by decide) (by decide)
  exact ⟨H.1 (by decide), H.2.1 0 9 (by decide) (by decide),
    H.2.2 [1, 2, 3, 7] [1, 2, 3] (by decide)⟩

/-- Claim C1: the sync-direction decision of `determineAndPerformSync`
follows the spec's rules — no cloud metadata means Push; else a strictly
newer cloud side with a positive chat count means Pull; else a strictly
newer local side with a positive chat count means Push; otherwise the
side with the strictly higher chat count wins (ties push).  The decision
is a pure function of the two timestamps and the two chat counts, and the
spec's concrete examples hold. -/
theorem decideWithCloud_spec (lt lc ct cc : Nat) :
    decideWithCloud lt lc none = .push
    ∧ (ct > lt ∧ cc > 0 → decideWithCloud lt lc (some (ct, cc)) = .pull)
    ∧ (lt > ct ∧ lc > 0 → decideWithCloud lt lc (some (ct, cc)) = .push)
    ∧ (¬(ct > lt ∧ cc > 0) → ¬(lt > ct ∧ lc > 0) →
        decideWithCloud lt lc (some (ct, cc))
          = if cc > lc then .pull else .push)
    ∧ decideWithCloud 100 5 (some (200, 10)) = .pull
    ∧ decideWithCloud 200 5 (some (100, 0)) = .push
    ∧ decideWithCloud 100 3 (some (100, 7)) = .pull := by
  refine ⟨rfl, ?_, ?_, ?_, by decide, by decide, by decide⟩
  · intro h
    simp only [decideWithCloud, decideDirection, if_pos h]
  · intro h
    have hn : ¬(ct > lt ∧ cc > 0) := by omega
    simp only [decideWithCloud, decideDirection, if_neg hn, if_pos h]
  · intro h1 h2
    simp only [decideWithCloud, decideDirection, if_neg h1, if_neg h2]

/-- Witness for C1 at the spec's concrete inputs. -/
theorem decideWithCloud_spec_witness :
    decideWithCloud 100 5 (some (200, 10)) = .pull
    ∧ decideWithCloud 200 5 (some (100, 0)) = .push :=
  ⟨(decideWithCloud_spec 100 5 200 10).2.1 (by decide),
   (decideWithCloud_spec 200 5 100 0).2.2.1 (by decide)⟩

/-- Claim C6: with `syncHour = 9` and `syncMinute = 0`, `isDailySyncTime`
is true exactly when `lastSyncDate` differs from today and the clock is
at or after 09:00. -/
theorem isDailySyncTime_spec (today : String) (hour minute : Nat)
    (c : Config) (h9 : c.syncHour = 9) (h0 : c.syncMinute = 0) :
    isDailySyncTime today hour minute c = true
      ↔ c.lastSyncDate ≠ today
        ∧ (hour > 9 ∨ (hour = 9 ∧ minute ≥ 0)) := by
  unfold isDailySyncTime
  rw [h9, h0]
  by_cases hl : c.lastSyncDate = today
  · simp [hl]
  · simp only [if_neg hl, ne_eq, hl, not_false_eq_true, true_and]
    by_cases hh : hour > 9 ∨ (hour = 9 ∧ minute ≥ 0)
    · simp [hh]
    · simp [hh]

/-- Witness for C6: a tick at 10:30 on an unstamped day triggers. -/
theorem isDailySyncTime_spec_witness :
    isDailySyncTime "2025-01-02" 10 30 cfg0 = true :=
  (isDailySyncTime_spec "2025-01-02" 10 30 cfg0 rfl rfl).mpr
    ⟨by decide, by omega⟩

/-- Counterexample to claim C7: when the metadata object does not exist
(`downloadFromGCS` returns null), `getCloudMetadata` raises the
`No cloud metadata found` error instead of returning an explicit
empty/absent result. -/
theorem getCloudMetadata_absent_is_error :
    exOk (getCloudMetadata env0 st0).1 = false
    ∧ (getCloudMetadata env0 st0).1 = .error .noCloudMetadata
    ∧ env0.download "typingmind-metadata.json" = .ok none := by decide

/-- Claim C7 as amended: `getCloudMetadata` raises an error in both
failure shapes, but distinct ones — `noCloudMetadata` when the object is
absent, and the decode failure propagates as a distinct error when the
object exists but fails to parse; absence is never reported as the
decode-failure error or vice versa. -/
theorem getCloudMetadata_error_kinds (env : Env K V) (st : St V)
    (hc : st.cloudMetadata = none) :
    (env.download "typingmind-metadata.json" = .ok none →
      (getCloudMetadata env st).1 = .error .noCloudMetadata)
    ∧ (∀ b, env.download "typingmind-metadata.json" = .ok (some b) →
        env.parseMeta b = none →
        (getCloudMetadata env st).1 = .error .metaDecodeFailed)
    ∧ Err.noCloudMetadata ≠ Err.metaDecodeFailed := by
  refine ⟨?_, ?_, by decide⟩
  · intro h
    simp [getCloudMetadata, hc, h]
  · intro b h hp
    simp [getCloudMetadata, hc, h, hp]

/-- Witness for the amended C7: the absent case at a concrete cloud. -/
theorem getCloudMetadata_error_kinds_witness :
    (getCloudMetadata env0 st0).1 = Except.error Err.noCloudMetadata :=
  (getCloudMetadata_error_kinds env0 st0 rfl).1 rfl

/-- Claim C10: `restoreApplicationData` overwrites only the entries
present in the payload — `chats` is always written (its presence was
checked), while absent `settings`/`favorites`/`folders` leave the
existing entries unchanged; a payload without `chats` (or a null payload)
is rejected before anything is written. -/
theorem restoreApplicationData_frame (env : Env K V) (d : AppData V)
    (st : St V) :
    restoreApplicationData env none st = (.error .invalidDataStructure, st)
    ∧ (d.chats = none →
        restoreApplicationData env (some d) st
          = (.error .invalidDataStructure, st))
    ∧ (∀ c, d.chats = some c →
        (restoreApplicationData env (some d) st).1 = .ok ()
        ∧ (restoreApplicationData env (some d) st).2.store.chats = some c
        ∧ (restoreApplicationData env (some d) st).2.store.settings
            = (match d.settings with
                | some x => some x
                | none => st.store.settings)
        ∧ (restoreApplicationData env (some d) st).2.store.favorites
            = (match d.favorites with
                | some x => some x
                | none => st.store.favorites)
        ∧ (restoreApplicationData env (some d) st).2.store.folders
            = (match d.folders with
                | some x => some x
                | none => st.store.folders)) := by
  refine ⟨rfl, ?_, ?_⟩
  · intro h
    simp [restoreApplicationData, h]
  · intro c hc
    simp only [restoreApplicationData, hc]
    cases hs : d.settings <;> cases hf : d.favorites <;> cases ho : d.folders
      <;> simp

/-- Witness for C10: a payload holding only `chats` and `favorites`
leaves `settings` and `folders` untouched. -/
theorem restoreApplicationData_frame_witness :
    (restoreApplicationData env0 (some d10) st0).1 = .ok ()
    ∧ (restoreApplicationData env0 (some d10) st0).2.store.chats = some 5
    ∧ (restoreApplicationData env0 (some d10) st0).2.store.settings
        = st0.store.settings
    ∧ (restoreApplicationData env0 (some d10) st0).2.store.favorites = some 7
    ∧ (restoreApplicationData env0 (some d10) st0).2.store.folders
        = st0.store.folders := by
  have H := (restoreApplicationData_frame env0 d10 st0).2.2 5 rfl
  exact ⟨H.1, H.2.1, H.2.2.1, H.2.2.2.1, H.2.2.2.2⟩

/-- Claim C5 is contradicted by the code: on a scheduled tick,
`performSync` converts every failure into a `false` return value, so the
`await performSync()` in the interval callback never throws and the
subsequent day-stamping (`config.lastSyncDate = today; saveConfiguration()`)
runs even when the sync run failed.  Here the cloud fails every request,
`performSync` returns `false`, and the tick still stamps and persists
today's date, so later ticks that day will not retry. -/
theorem dailySyncTick_stamps_despite_failure :
    (performSync env5 ⟨false, none⟩ st0).1 = false
    ∧ (dailySyncTick env5 st0).config.lastSyncDate = "2025-01-02"
    ∧ (dailySyncTick env5 st0).persisted.lastSyncDate = "2025-01-02"
    ∧ st0.config.lastSyncDate = "2025-01-01" := by decide

theorem restoreApplicationData_error_store (env : Env K V)
    (d : Option (AppData V)) (st : St V) (e : Err)
    (h : (restoreApplicationData env d st).1 = .error e) :
    (restoreApplicationData env d st).2.store = st.store := by
  cases d with
  | none => rfl
  | some dd =>
    cases hch : dd.chats with
    | none => simp [restoreApplicationData, hch]
    | some c => simp [restoreApplicationData, hch] at h

theorem pullFinish_error_store (env : Env K V) (b : Bytes) (st : St V)
    (e : Err) (h : (pullFinish env b st).1 = .error e) :
    (pullFinish env b st).2.store = st.store := by
  unfold pullFinish at h ⊢
  cases hp : env.parseBackup b with
  | none => simp [hp]
  | some sd =>
    simp only [hp] at h ⊢
    cases hd : sd.data with
    | none => simp [hd]
    | some d =>
      simp only [hd] at h ⊢
      cases hr : restoreApplicationData env (some d) st with
      | mk r st' =>
        cases r with
        | error e' =>
          simp only [hr] at h ⊢
          have := restoreApplicationData_error_store env (some d) st e'
            (by rw [hr])
          rw [hr] at this
          exact this
        | ok u => simp [hr] at h

/-- Claim C3: whenever `pullFromCloud` fails — no backups listed, download
failure, decryption failure, JSON-parse failure, or a decoded object
missing its required `data`/`chats` fields — the local dataset (the
`chats`/`settings`/`favorites`/`folders` entries) is left entirely
unchanged: every validation happens before the first destructive write. -/
theorem pullFromCloud_error_frame (env : Env K V) (st : St V) (e : Err)
    (h : (pullFromCloud env st).1 = .error e) :
    (pullFromCloud env st).2.store = st.store := by
  unfold pullFromCloud at h ⊢
  cases hlb : env.listBackups with
  | error u => simp [hlb, logEff]
  | ok files =>
    simp only [hlb] at h ⊢
    by_cases hemp : files.isEmpty
    · simp [hemp, logEff]
    · simp only [if_neg hemp] at h ⊢
      cases hsort : sortByTimestampDesc files with
      | nil => simp [logEff]
      | cons latest rest =>
        simp only [hsort] at h ⊢
        cases hdl : env.download latest.key with
        | error u => simp [hdl, logEff]
        | ok ob =>
          cases ob with
          | none => simp [logEff]
          | some bytes =>
            rw [hdl] at h
            simp only [logEff] at h ⊢
            by_cases henc : (latest.encMeta == some "true"
                || latest.key.endsWith ".dat") = true
            · rw [if_pos henc] at h ⊢
              by_cases hkey : st.config.encryptionKey = ""
              · rw [if_pos hkey] at h ⊢
              · rw [if_neg hkey] at h ⊢
                cases hdc : decryptData env.prim bytes st.config.encryptionKey with
                | error de =>
                  cases de <;> simp [hdc]
                | ok pt =>
                  simp only [hdc] at h ⊢
                  exact pullFinish_error_store env pt _ e h
            · rw [if_neg henc] at h ⊢
              exact pullFinish_error_store env bytes _ e h

/-- Witness for C3: an empty backup listing fails the pull and leaves the
store untouched. -/
theorem pullFromCloud_error_frame_witness :
    (pullFromCloud env0 st0).2.store = st0.store :=
  pullFromCloud_error_frame env0 st0 .noBackups (by decide)

/-- Claim C9: `performSync` never throws — it is a total function whose
result is `false` on every failure and `true` exactly when the guards
pass and the sync body succeeds; after a call that entered the body the
`isRunning` flag is `false` again; a call made while `isRunning` is
already `true`, or while the GCS configuration is incomplete, returns
`false` with the state (dataset, caches, effect log) unchanged. -/
theorem performSync_guards (env : Env K V) (opts : SyncOptions) (st : St V) :
    (st.isRunning = true → performSync env opts st = (false, st))
    ∧ (st.isRunning = false → (performSync env opts st).2.isRunning = false)
    ∧ (isGcsConfigured st.config = false → performSync env opts st = (false, st))
    ∧ ((performSync env opts st).1 = true ↔
        st.isRunning = false ∧ isGcsConfigured st.config = true
        ∧ ¬(st.config.syncMode = "disabled" ∧ opts.force = false)
        ∧ exOk (syncBody env opts { st with isRunning := true }).1 = true) := by
  refine ⟨?_, ?_, ?_, ?_⟩
  · intro h
    simp [performSync, h]
  · intro h
    simp only [performSync, h, Bool.false_eq_true, if_false]
    by_cases hg : isGcsConfigured st.config = false
    · simp [hg, h]
    · simp only [if_neg hg]
      by_cases hd : st.config.syncMode = "disabled" ∧ opts.force = false
      · simp [hd, h]
      · simp only [if_neg hd]
        cases hsb : syncBody env opts { st with isRunning := true } with
        | mk r st3 =>
          cases r <;> simp [hsb]
  · intro hg
    cases hb : st.isRunning
    · simp [performSync, hb, hg]
    · simp [performSync, hb]
  · cases hb : st.isRunning
    · simp only [performSync, hb, Bool.false_eq_true, if_false]
      by_cases hg : isGcsConfigured st.config = false
      · simp [hg]
      · simp only [if_neg hg]
        by_cases hd : st.config.syncMode = "disabled" ∧ opts.force = false
        · simp [hd]
        · simp only [if_neg hd]
          cases hsb : syncBody env opts { st with isRunning := true } with
          | mk r st3 =>
            cases r <;>
              simp_all [exOk, Bool.not_eq_false]
    · simp [performSync, hb]

/-- Witness for C9: with incomplete GCS configuration the call returns
`false` and the state is untouched. -/
theorem performSync_guards_witness :
    performSync env0 ⟨true, none⟩ stNoGcs = (false, stNoGcs) :=
  (performSync_guards env0 ⟨true, none⟩ stNoGcs).2.2.1 (by decide)

theorem pushUpload_ok_shape (env : Env K V) (p : Pushed V) (ub : Bytes)
    (ext : String) (st : St V)
    (h : (pushUpload env p ub ext st).1 = .ok ()) :
    (pushUpload env p ub ext st).2.effects
      = st.effects ++ [.write (backupKey env.today ext) ub,
          .write "typingmind-metadata.json" (env.stringifyPushed p)]
    ∧ (pushUpload env p ub ext st).2.cloudMetadata = some (.pushed p)
    ∧ (pushUpload env p ub ext st).2.config = st.config
    ∧ (pushUpload env p ub ext st).2.store = st.store := by
  unfold pushUpload at h ⊢
  cases h1 : env.upload (backupKey env.today ext) with
  | error u => simp [h1, logEff] at h
  | ok u =>
    simp only [h1] at h ⊢
    cases h2 : env.upload "typingmind-metadata.json" with
    | error u => simp [h2, logEff] at h
    | ok u => simp [h2, logEff, List.append_assoc]

theorem pushToCloud_ok_shape (env : Env K V) (ld : SyncData V) (st : St V)
    (h : (pushToCloud env ld st).1 = .ok ()) :
    ∃ ub, (pushToCloud env ld st).2.effects
      = st.effects ++ [.write (backupKey env.today
          (if st.config.encryptionEnabled then ".dat" else ".json")) ub,
          .write "typingmind-metadata.json"
            (env.stringifyPushed ⟨ld, env.now⟩)]
    ∧ (pushToCloud env ld st).2.cloudMetadata = some (.pushed ⟨ld, env.now⟩)
    ∧ (pushToCloud env ld st).2.config = st.config
    ∧ (pushToCloud env ld st).2.store = st.store := by
  unfold pushToCloud at h ⊢
  cases he : st.config.encryptionEnabled with
  | false =>
    simp only [he, Bool.false_eq_true, if_false] at h ⊢
    exact ⟨_, pushUpload_ok_shape env _ _ _ st h⟩
  | true =>
    simp only [he, if_true] at h ⊢
    by_cases hk : st.config.encryptionKey = ""
    · simp [hk] at h
    · simp only [if_neg hk] at h ⊢
      exact ⟨_, pushUpload_ok_shape env _ _ _ st h⟩

theorem backupKey_injective (t1 t2 e : String) (h : t1 ≠ t2) :
    backupKey t1 e ≠ backupKey t2 e := by
  intro heq
  apply h
  unfold backupKey at heq
  have hd := congrArg String.data heq
  simp only [String.data_append, List.append_assoc] at hd
  have h1 := List.append_cancel_left hd
  have h2 := List.append_cancel_right h1
  exact String.ext h2

/-- Counterexample to claim C8: two successive pushes with unchanged
local data on the same date write the SAME date-keyed backup object twice
(the second upload overwrites the first), not two distinct objects. -/
theorem pushToCloud_twice_same_key :
    (pushToCloud env0 ld0 st0).1 = .ok ()
    ∧ (pushToCloud env8b ld0 (pushToCloud env0 ld0 st0).2).1 = .ok ()
    ∧ writeKeys (pushToCloud env8b ld0 (pushToCloud env0 ld0 st0).2).2.effects
        = ["typingmind-backup-2025-01-02.json", "typingmind-metadata.json",
           "typingmind-backup-2025-01-02.json", "typingmind-metadata.json"]
    := by decide

/-- Claim C8 as amended: two successful pushes in succession with
unchanged local data upload to the SAME date-keyed object
(`typingmind-backup-<ISO date>.json`/`.dat`) when both runs fall on the
same date — the second overwrites the first — and both uploads carry the
same `data` payload (only the envelope timestamps differ); the backup
objects are distinct exactly when the ISO dates differ. -/
theorem pushToCloud_twice_spec (env1 env2 : Env K V) (ld : SyncData V)
    (st : St V)
    (h1 : (pushToCloud env1 ld st).1 = .ok ())
    (h2 : (pushToCloud env2 ld (pushToCloud env1 ld st).2).1 = .ok ())
    (hd : env1.today = env2.today) :
    writeKeys (pushToCloud env2 ld (pushToCloud env1 ld st).2).2.effects
      = writeKeys st.effects
        ++ [backupKey env1.today
              (if st.config.encryptionEnabled then ".dat" else ".json"),
            "typingmind-metadata.json",
            backupKey env1.today
              (if st.config.encryptionEnabled then ".dat" else ".json"),
            "typingmind-metadata.json"]
    ∧ (pushToCloud env1 ld st).2.cloudMetadata = some (.pushed ⟨ld, env1.now⟩)
    ∧ (pushToCloud env2 ld (pushToCloud env1 ld st).2).2.cloudMetadata
        = some (.pushed ⟨ld, env2.now⟩)
    ∧ (∀ t1 t2 e, t1 ≠ t2 → backupKey t1 e ≠ backupKey t2 e) := by
  obtain ⟨ub1, he1, hm1, hc1, _⟩ := pushToCloud_ok_shape env1 ld st h1
  obtain ⟨ub2, he2, hm2, hc2, _⟩ :=
    pushToCloud_ok_shape env2 ld (pushToCloud env1 ld st).2 h2
  refine ⟨?_, hm1, hm2, backupKey_injective⟩
  rw [he2, hc1, he1, ← hd]
  simp [writeKeys, List.filterMap_append]

/-- Witness for the amended C8 at a concrete pair of same-date pushes. -/
theorem pushToCloud_twice_spec_witness :
    writeKeys (pushToCloud env8b ld0 (pushToCloud env0 ld0 st0).2).2.effects
      = writeKeys st0.effects
        ++ [backupKey env0.today
              (if st0.config.encryptionEnabled then ".dat" else ".json"),
            "typingmind-metadata.json",
            backupKey env0.today
              (if st0.config.encryptionEnabled then ".dat" else ".json"),
            "typingmind-metadata.json"]
    ∧ (pushToCloud env0 ld0 st0).2.cloudMetadata
        = some (.pushed ⟨ld0, env0.now⟩) := by
  have H := pushToCloud_twice_spec env0 env8b ld0 st0 (by decide) (by decide)
    rfl
  exact ⟨H.1, H.2.1⟩

end TMCloud
